import Mathlib

/-!
Verification of the geometric transformation and coordinate-indexing pipeline of
the `satellite-image-handler` repository, as a shallow embedding in Lean 4.

Conventions of the embedding:
* numpy 2-D arrays become `NArray`: an explicit spatial shape (`rows × cols`)
  together with a total data function (only indices inside the shape matter);
* Python floats become `ℚ` (the pipeline only adds, subtracts, multiplies,
  divides and compares, so exact rationals model every branch decision);
* rasterio's 6-coefficient `Affine` georeferencing matrix becomes `Affine`;
* the duck-typed transformation objects of
  `satellite_image_handler/utils/image_transformation.py` (a file the handlers
  import) become the `ImageTransformation` record of the three methods the
  handlers call on them;
* `pyproj` reprojection (an external collaborator) is injected as a pair of
  function fields of the handler, exactly as the handler calls the two fixed
  projection helpers of `utils/projections.py`;
* a raised Python exception becomes `Option.none` / `Except.error`.
-/

/-- Python's `int()` applied to a float truncates toward zero:
`int(3.6) = 3`, `int(-3.6) = -3`.  This is the conversion used by
`AbstractSentinelImageHandler.index_function`. -/
def python_int (q : ℚ) : ℤ := if 0 ≤ q then ⌊q⌋ else ⌈q⌉

/-- Shallow embedding of a numpy 2-D array: a spatial shape plus a total
data function.  Only the values at indices inside the shape are meaningful. -/
structure NArray (α : Type) where
  rows : ℕ
  cols : ℕ
  data : ℕ → ℕ → α

/-- Embedding of rasterio's `Affine` georeferencing matrix: six coefficients
mapping pixel coordinates `(col, row)` to projected coordinates `(x, y)` by
`x = a*col + b*row + c`, `y = d*col + e*row + f`. -/
structure Affine where
  a : ℚ
  b : ℚ
  c : ℚ
  d : ℚ
  e : ℚ
  f : ℚ

/-- Application of an affine matrix to a coordinate pair, rasterio's
`affine * (x, y)`. -/
def Affine.apply (A : Affine) (x y : ℚ) : ℚ × ℚ :=
  (A.a * x + A.b * y + A.c, A.d * x + A.e * y + A.f)

/-- Determinant of the linear part of an affine matrix. -/
def Affine.det (A : Affine) : ℚ := A.a * A.e - A.b * A.d

/-- Matrix inverse of an affine matrix, rasterio's `~affine` (adjugate over
determinant; on a singular matrix the entries degenerate, as `ℚ` division by
zero is zero — the handlers only ever invert a valid georeferencing matrix). -/
def Affine.inv (A : Affine) : Affine where
  a := A.e / A.det
  b := -A.b / A.det
  c := (A.b * A.f - A.c * A.e) / A.det
  d := -A.d / A.det
  e := A.a / A.det
  f := (A.c * A.d - A.a * A.f) / A.det

/-- Interface of the transformation objects the handlers iterate over: the
three methods called by `abstract_sentinel_image_handler.py`.  The band method
transforms a whole array; the two geocoordinate methods map a pixel index
forward / backward across the transformation. -/
structure ImageTransformation where
  apply_transformation_to_band : NArray ℚ → NArray ℚ
  apply_transformation_to_geocoordinates : ℤ → ℤ → ℤ × ℤ
  apply_inverse_transformation_to_geocoordinate : ℤ → ℤ → ℤ × ℤ

/-- Modelled from the spec: `IdentityPolygoneBoundariesImage` of the missing
`utils/image_transformation.py` — "IdentityPolygonCrop: bounding box equals the
full extent", so the band is unchanged and both index maps are the identity. -/
def IdentityPolygoneBoundariesImage : ImageTransformation where
  apply_transformation_to_band := fun band => band
  apply_transformation_to_geocoordinates := fun r c => (r, c)
  apply_inverse_transformation_to_geocoordinate := fun r c => (r, c)

/-- Modelled from the spec: the 90-degree case of `RotateImage` of the missing
`utils/image_transformation.py` — a lossless clockwise quarter-turn
(`RotateImage(-90, shape)`, the stored sign convention being positive
counter-clockwise), realised as a transpose/flip.  `h` is the row count of the
pre-rotation shape the object is constructed with; the forward index map sends
`(r, c)` of an `h × w` array to `(c, h - 1 - r)` of the rotated `w × h` array,
and the inverse map undoes it. -/
def RotateImageCW90 (h : ℕ) : ImageTransformation where
  apply_transformation_to_band := fun band =>
    { rows := band.cols, cols := band.rows,
      data := fun i j => band.data (band.rows - 1 - j) i }
  apply_transformation_to_geocoordinates := fun r c => (c, (h : ℤ) - 1 - r)
  apply_inverse_transformation_to_geocoordinate := fun r c => ((h : ℤ) - 1 - c, r)

/-- Embedding of `AbstractSentinelImageHandler` restricted to the state its
coordinate-indexing methods read: the georeferencing matrix, the configured
non-crop transformation list, the polygon-crop transformation, and the two
injected `pyproj` reprojection collaborators of `utils/projections.py`. -/
structure SentinelHandler where
  affine_matrix : Affine
  image_transformation_list : List ImageTransformation
  image_wkt_polygone_subset : ImageTransformation
  project_epsg4326_to_epsg_32620 : ℚ → ℚ → ℚ × ℚ
  project_epsg_32620_to_epsg4326 : ℚ → ℚ → ℚ × ℚ

/-- Embedding of `AbstractSentinelImageHandler.index_function`: invert the
affine matrix, multiply it with the input coordinates, and convert the
fractional `(col, row)` to integers with Python's `int()` (truncation toward
zero), returning `(row_index, col_index)`. -/
def SentinelHandler.index_function (h : SentinelHandler) (longitude latitude : ℚ) : ℤ × ℤ :=
  let inv_affine := h.affine_matrix.inv
  let transformed_coords := inv_affine.apply longitude latitude
  (python_int transformed_coords.2, python_int transformed_coords.1)

/-- Embedding of `AbstractSentinelImageHandler.inverse_index_function`:
`(col_index, row_index) * affine_matrix`. -/
def SentinelHandler.inverse_index_function (h : SentinelHandler) (row_index col_index : ℤ) : ℚ × ℚ :=
  h.affine_matrix.apply (col_index : ℚ) (row_index : ℚ)

/-- Embedding of
`AbstractSentinelImageHandler._get_row_col_index_after_transformation_from_longitide_latitude`:
project the WGS84 query to the fixed UTM zone, resolve the raw index with
`index_function`, then run the `for transformation in
self._image_transformation_list()` loop applying
`apply_transformation_to_geocoordinates` in list order. -/
def SentinelHandler.get_row_col_index_after_transformation_from_longitide_latitude
    (h : SentinelHandler) (longitude latitude : ℚ) : ℤ × ℤ :=
  let p := h.project_epsg4326_to_epsg_32620 longitude latitude
  let rc := h.index_function p.1 p.2
  h.image_transformation_list.foldl
    (fun rc t => t.apply_transformation_to_geocoordinates rc.1 rc.2) rc

/-- Embedding of
`AbstractSentinelImageHandler.get_row_col_index_from_longitide_latitude`:
the after-transformation resolution followed by the polygon-crop
transformation's forward index map. -/
def SentinelHandler.get_row_col_index_from_longitide_latitude
    (h : SentinelHandler) (longitude latitude : ℚ) : ℤ × ℤ :=
  let rc := h.get_row_col_index_after_transformation_from_longitide_latitude longitude latitude
  h.image_wkt_polygone_subset.apply_transformation_to_geocoordinates rc.1 rc.2

/-- Embedding of
`AbstractSentinelImageHandler.get_longitude_latitude_from_row_col_index`:
the polygon-crop inverse index map first, then the `for transformation in
self._image_transformation_list()` loop applying
`apply_inverse_transformation_to_geocoordinate` in list order, then
`inverse_index_function` and the reprojection back to WGS84. -/
def SentinelHandler.get_longitude_latitude_from_row_col_index
    (h : SentinelHandler) (row_index col_index : ℤ) : ℚ × ℚ :=
  let rc0 := h.image_wkt_polygone_subset.apply_inverse_transformation_to_geocoordinate
    row_index col_index
  let rc := h.image_transformation_list.foldl
    (fun rc t => t.apply_inverse_transformation_to_geocoordinate rc.1 rc.2) rc0
  let xy := h.inverse_index_function rc.1 rc.2
  h.project_epsg_32620_to_epsg4326 xy.1 xy.2

/-- Composition of a list of index maps in list order: `compose_in_order
[f₁, …, fₙ]` applies `f₁` first and `fₙ` last. -/
def compose_in_order {α : Type} : List (α → α) → α → α
  | [] => fun x => x
  | f :: fs => fun x => compose_in_order fs (f x)

/-- Spec-worded forward geo→pixel query (§4.2 of the spec): resolve the raw
pre-transform index via the Index Resolver, then apply the forward index maps
of `T1..Tn` in list order, then apply the crop's forward index map. -/
def SentinelHandler.spec_forward_index_query
    (h : SentinelHandler) (longitude latitude : ℚ) : ℤ × ℤ :=
  let p := h.project_epsg4326_to_epsg_32620 longitude latitude
  let raw := h.index_function p.1 p.2
  let moved := compose_in_order
    (h.image_transformation_list.map
      (fun t (rc : ℤ × ℤ) => t.apply_transformation_to_geocoordinates rc.1 rc.2)) raw
  h.image_wkt_polygone_subset.apply_transformation_to_geocoordinates moved.1 moved.2

/-- Spec-worded inverse pixel→geo query (§4.2 of the spec): apply the crop's
inverse index map, then the inverse index maps of `Tn..T1` in reverse list
order (`Tn` first, `T1` last), then convert the raw index back to a
geo-coordinate via the Index Resolver's inverse. -/
def SentinelHandler.spec_inverse_index_query
    (h : SentinelHandler) (row_index col_index : ℤ) : ℚ × ℚ :=
  let rc0 := h.image_wkt_polygone_subset.apply_inverse_transformation_to_geocoordinate
    row_index col_index
  let rc := compose_in_order
    ((h.image_transformation_list.map
      (fun t (rc : ℤ × ℤ) => t.apply_inverse_transformation_to_geocoordinate rc.1 rc.2)).reverse)
    rc0
  let xy := h.inverse_index_function rc.1 rc.2
  h.project_epsg_32620_to_epsg4326 xy.1 xy.2

/-- Variant of `SentinelHandler.spec_inverse_index_query` that applies the
non-crop inverse index maps in the same list order `T1..Tn` instead of the
reverse order — the order the code actually uses. -/
def SentinelHandler.listorder_inverse_index_query
    (h : SentinelHandler) (row_index col_index : ℤ) : ℚ × ℚ :=
  let rc0 := h.image_wkt_polygone_subset.apply_inverse_transformation_to_geocoordinate
    row_index col_index
  let rc := compose_in_order
    (h.image_transformation_list.map
      (fun t (rc : ℤ × ℤ) => t.apply_inverse_transformation_to_geocoordinate rc.1 rc.2))
    rc0
  let xy := h.inverse_index_function rc.1 rc.2
  h.project_epsg_32620_to_epsg4326 xy.1 xy.2

lemma compose_in_order_eq_foldl {α : Type} (fs : List (α → α)) (x : α) :
    compose_in_order fs x = fs.foldl (fun a f => f a) x := by
  induction fs generalizing x with
  | nil => rfl
  | cons f fs ih => simp [compose_in_order, ih]

/-- C6: the forward geo→pixel query resolves the raw index via the Index
Resolver (projection then inverted affine matrix), then applies the forward
index maps of the non-crop transformations `T1..Tn` in list order, and applies
the crop transformation's forward index map last. -/
theorem forward_query_is_resolver_then_list_order_then_crop
    (h : SentinelHandler) (longitude latitude : ℚ) :
    h.get_row_col_index_from_longitide_latitude longitude latitude =
      h.spec_forward_index_query longitude latitude := by
  unfold SentinelHandler.get_row_col_index_from_longitide_latitude
    SentinelHandler.get_row_col_index_after_transformation_from_longitide_latitude
    SentinelHandler.spec_forward_index_query
  simp only [compose_in_order_eq_foldl, List.foldl_map]

/-- C1 (amended): the inverse pixel→geo query applies the crop transformation's
inverse index map first, then the inverse index maps of the non-crop
transformations in the same list order `T1..Tn` (not reversed), and finally
converts the raw index to a geo-coordinate via the Index Resolver's inverse. -/
theorem inverse_query_is_crop_then_list_order_then_resolver
    (h : SentinelHandler) (row_index col_index : ℤ) :
    h.get_longitude_latitude_from_row_col_index row_index col_index =
      h.listorder_inverse_index_query row_index col_index := by
  unfold SentinelHandler.get_longitude_latitude_from_row_col_index
    SentinelHandler.listorder_inverse_index_query
  simp only [compose_in_order_eq_foldl, List.foldl_map]

/-- Handler with two chained quarter-turns (2×3 then 3×2), an identity crop,
an identity affine matrix and identity reprojections, on which forward and
reverse application order of the inverse index maps differ. -/
def two_rotation_handler : SentinelHandler where
  affine_matrix := ⟨1, 0, 0, 0, 1, 0⟩
  image_transformation_list := [RotateImageCW90 2, RotateImageCW90 3]
  image_wkt_polygone_subset := IdentityPolygoneBoundariesImage
  project_epsg4326_to_epsg_32620 := fun x y => (x, y)
  project_epsg_32620_to_epsg4326 := fun x y => (x, y)

/-- C1 (counterexample): on a handler with two non-crop transformations the
code's inverse query does not equal the spec's crop-first, reversed-list
composition — the code applies the inverse maps in forward list order. -/
theorem inverse_query_order_counterexample :
    SentinelHandler.get_longitude_latitude_from_row_col_index two_rotation_handler 0 0 ≠
      SentinelHandler.spec_inverse_index_query two_rotation_handler 0 0 := by
  unfold SentinelHandler.get_longitude_latitude_from_row_col_index
    SentinelHandler.spec_inverse_index_query two_rotation_handler
  simp [RotateImageCW90, IdentityPolygoneBoundariesImage, compose_in_order,
    SentinelHandler.inverse_index_function, Affine.apply, Prod.ext_iff]

/-- Rounding a rational to the nearest integer, the operation the claim (and
the docstring of `index_function`) prescribes for the Affine Resolver
boundary, stated with Mathlib's `round` (`round q = ⌊q + 1/2⌋`). -/
def nearest_integer (q : ℚ) : ℤ := round q

/-- Handler holding the identity georeferencing matrix, so that
`index_function` receives exactly the fractional `(col, row)` it is asked to
convert to integers. -/
def identity_affine_handler : SentinelHandler where
  affine_matrix := ⟨1, 0, 0, 0, 1, 0⟩
  image_transformation_list := []
  image_wkt_polygone_subset := IdentityPolygoneBoundariesImage
  project_epsg4326_to_epsg_32620 := fun x y => (x, y)
  project_epsg_32620_to_epsg4326 := fun x y => (x, y)

/-- C2 (code bug): at the projected point `(x, y) = (2.7, 3.6)` under the
identity affine matrix, `index_function` returns `(row, col) = (3, 2)` —
Python's `int()` truncates toward zero — while rounding the fractional
`(row, col) = (3.6, 2.7)` to the nearest integer, as the claim and the
function's own docstring prescribe, gives `(4, 3)`. -/
theorem index_function_truncates_instead_of_rounding :
    SentinelHandler.index_function identity_affine_handler (27/10) (36/10) = (3, 2) ∧
      nearest_integer (36/10) = 4 ∧ nearest_integer (27/10) = 3 ∧
      ((3 : ℤ), (2 : ℤ)) ≠ ((4 : ℤ), (3 : ℤ)) := by
  have h36 : (⌊(36 : ℚ)/10⌋ : ℤ) = 3 := by rw [Int.floor_eq_iff] <;> norm_num
  have h27 : (⌊(27 : ℚ)/10⌋ : ℤ) = 2 := by rw [Int.floor_eq_iff] <;> norm_num
  refine ⟨?_, ?_, ?_, by decide⟩
  · unfold SentinelHandler.index_function identity_affine_handler
    simp only [Affine.inv, Affine.det, Affine.apply, python_int]
    norm_num [h36, h27]
  · unfold nearest_integer
    rw [round_eq, Int.floor_eq_iff] <;> norm_num
  · unfold nearest_integer
    rw [round_eq, Int.floor_eq_iff] <;> norm_num

/-- Indexing one axis of length `n` with a Python/numpy integer index `i`:
a negative index is first shifted by `n` (numpy's wraparound), and the access
raises `IndexError` (here `none`) only when the shifted index still falls
outside `[0, n)`. -/
def np_effective (n : ℕ) (i : ℤ) : ℤ := if i < 0 then i + n else i

def np_axis_index (n : ℕ) (i : ℤ) : Option ℕ :=
  if 0 ≤ np_effective n i ∧ np_effective n i < n then some (np_effective n i).toNat else none

/-- Embedding of the state read by `AbstractPolymerImageHandler`'s coordinate
queries: the post-subset per-pixel longitude and latitude arrays (`self.lon`
and `self.lat`), which the handler builds with one shared shape. -/
structure PolymerGrid where
  rows : ℕ
  cols : ℕ
  lon : ℕ → ℕ → ℚ
  lat : ℕ → ℕ → ℚ

/-- Embedding of
`AbstractPolymerImageHandler.get_longitude_latitude_from_row_col_index`:
`(self.lon[row_index, col_index], self.lat[row_index, col_index])` with
numpy integer indexing; a raised `IndexError` is `none`. -/
def PolymerGrid.get_longitude_latitude_from_row_col_index
    (g : PolymerGrid) (row_index col_index : ℤ) : Option (ℚ × ℚ) :=
  (np_axis_index g.rows row_index).bind fun i =>
    (np_axis_index g.cols col_index).map fun j => (g.lon i j, g.lat i j)

lemma np_axis_index_eq_none {n : ℕ} {i : ℤ} (h : (n : ℤ) ≤ i ∨ i < -(n : ℤ)) :
    np_axis_index n i = none := by
  unfold np_axis_index np_effective
  rcases h with h | h <;> split_ifs <;> first | rfl | (exfalso; omega)

/-- C4 (amended): an inverse pixel→geo query whose row index lies outside
`[-rows, rows)` or whose column index lies outside `[-cols, cols)` raises
`IndexError` — the caller receives an explicit failure; queries with negative
components inside those ranges, however, are silently wrapped around the
array by numpy (see the counterexample). -/
theorem polymer_inverse_query_far_out_of_extent_fails
    (g : PolymerGrid) (row_index col_index : ℤ)
    (hout : (g.rows : ℤ) ≤ row_index ∨ row_index < -(g.rows : ℤ) ∨
      (g.cols : ℤ) ≤ col_index ∨ col_index < -(g.cols : ℤ)) :
    g.get_longitude_latitude_from_row_col_index row_index col_index = none := by
  unfold PolymerGrid.get_longitude_latitude_from_row_col_index
  rcases hout with h | h | h | h
  · rw [np_axis_index_eq_none (Or.inl h)]; rfl
  · rw [np_axis_index_eq_none (Or.inr h)]; rfl
  · rw [np_axis_index_eq_none (Or.inl h)]
    cases np_axis_index g.rows row_index <;> rfl
  · rw [np_axis_index_eq_none (Or.inr h)]
    cases np_axis_index g.rows row_index <;> rfl

/-- Concrete 2×2 longitude/latitude grid whose cell `(i, j)` stores the pair
`(i, j)` itself, so a lookup reveals which cell was read. -/
def wrap_grid : PolymerGrid where
  rows := 2
  cols := 2
  lon := fun i _ => (i : ℚ)
  lat := fun _ j => (j : ℚ)

/-- Witness for `polymer_inverse_query_far_out_of_extent_fails` at row index 5
of a 2×2 grid. -/
theorem polymer_inverse_query_far_out_of_extent_fails_witness :
    ((wrap_grid.rows : ℤ) ≤ 5 ∨ (5 : ℤ) < -(wrap_grid.rows : ℤ) ∨
      (wrap_grid.cols : ℤ) ≤ 0 ∨ (0 : ℤ) < -(wrap_grid.cols : ℤ)) ∧
      wrap_grid.get_longitude_latitude_from_row_col_index 5 0 = none :=
  ⟨by decide, polymer_inverse_query_far_out_of_extent_fails wrap_grid 5 0 (by decide)⟩

/-- C4 (counterexample): the row index `-1` lies outside the final bands'
extent (valid rows of `wrap_grid` are `0` and `1`), yet the inverse query does
not fail: numpy wraps the index around the array and silently answers with the
coordinates stored at row `1`, column `0`. -/
theorem polymer_inverse_query_wraps_negative_index :
    ¬ (0 ≤ (-1 : ℤ)) ∧
      wrap_grid.get_longitude_latitude_from_row_col_index (-1) 0 =
        some (wrap_grid.lon 1 0, wrap_grid.lat 1 0) := by
  constructor
  · decide
  · rfl

/-- Strict lexicographic order on `(row, col)` pairs. -/
def lex_lt (p q : ℕ × ℕ) : Prop := p.1 < q.1 ∨ (p.1 = q.1 ∧ p.2 < q.2)

/-- Reflexive lexicographic order on `(row, col)` pairs. -/
def lex_le (p q : ℕ × ℕ) : Prop := p.1 < q.1 ∨ (p.1 = q.1 ∧ p.2 ≤ q.2)

/-- Row-major enumeration of all cell indices of the grid, one inner list per
row — the order in which `numpy.where` reports matches. -/
def PolymerGrid.cell_rows (g : PolymerGrid) : List (List (ℕ × ℕ)) :=
  (List.range g.rows).map fun i => (List.range g.cols).map fun j => (i, j)

/-- All cell indices of the grid in row-major order. -/
def PolymerGrid.cells (g : PolymerGrid) : List (ℕ × ℕ) := g.cell_rows.flatten

/-- Squared Euclidean distance between the raw query point and the stored
longitude/latitude of one grid cell: the array
`(longitude - nc_lon)**2 + (latitude - nc_lat)**2` of the source, at cell
`p`.  The query point enters unchanged — no reprojection is applied to it. -/
def PolymerGrid.sq_diff (g : PolymerGrid) (longitude latitude : ℚ) (p : ℕ × ℕ) : ℚ :=
  (longitude - g.lon p.1 p.2)^2 + (latitude - g.lat p.1 p.2)^2

/-- Minimum of a list of rationals, numpy's `arr.min()` reduction (`none` on
an empty array, where numpy raises). -/
def list_min : List ℚ → Option ℚ
  | [] => none
  | a :: t => some (t.foldl min a)

/-- Embedding of
`AbstractPolymerImageHandler.get_row_col_index_from_longitide_latitude`:
build the squared-distance array over the full grid, take its minimum, and
return the first cell (in numpy's row-major `numpy.where` order) whose
squared distance equals that minimum — the source's `x[0], y[0]`. -/
def PolymerGrid.get_row_col_index_from_longitide_latitude
    (g : PolymerGrid) (longitude latitude : ℚ) : Option (ℕ × ℕ) :=
  match list_min (g.cells.map (g.sq_diff longitude latitude)) with
  | none => none
  | some m => (g.cells.filter fun p => decide (g.sq_diff longitude latitude p = m)).head?

lemma foldl_min_mem (t : List ℚ) (a : ℚ) : t.foldl min a ∈ a :: t := by
  induction t generalizing a with
  | nil => simp
  | cons b t ih =>
    have h := ih (min a b)
    rcases List.mem_cons.mp h with h | h
    · rcases min_choice a b with hm | hm <;> rw [List.foldl_cons, h, hm] <;> simp
    · simp [List.foldl_cons, h]

lemma foldl_min_le (t : List ℚ) (a : ℚ) :
    t.foldl min a ≤ a ∧ ∀ x ∈ t, t.foldl min a ≤ x := by
  induction t generalizing a with
  | nil => simp
  | cons b t ih =>
    obtain ⟨h1, h2⟩ := ih (min a b)
    refine ⟨le_trans h1 (min_le_left a b), ?_⟩
    intro x hx
    rcases List.mem_cons.mp hx with rfl | hx
    · exact le_trans h1 (min_le_right a x)
    · exact h2 x hx

lemma list_min_mem {l : List ℚ} {m : ℚ} (h : list_min l = some m) : m ∈ l := by
  cases l with
  | nil => simp [list_min] at h
  | cons a t =>
    simp only [list_min, Option.some.injEq] at h
    exact h ▸ foldl_min_mem t a

lemma list_min_le {l : List ℚ} {m : ℚ} (h : list_min l = some m) : ∀ x ∈ l, m ≤ x := by
  cases l with
  | nil => simp [list_min] at h
  | cons a t =>
    simp only [list_min, Option.some.injEq] at h
    intro x hx
    rcases List.mem_cons.mp hx with hxa | hx
    · rw [hxa]; exact h ▸ (foldl_min_le t _).1
    · exact h ▸ (foldl_min_le t _).2 x hx

lemma head?_filter_mem {α : Type} {p : α → Bool} {l : List α} {x : α}
    (h : (l.filter p).head? = some x) : x ∈ l ∧ p x = true := by
  induction l with
  | nil => simp [List.filter] at h
  | cons a t ih =>
    rw [List.filter_cons] at h
    by_cases hpa : p a = true
    · rw [if_pos hpa, List.head?_cons, Option.some.injEq] at h
      subst h
      exact ⟨List.mem_cons_self a t, hpa⟩
    · rw [if_neg hpa] at h
      obtain ⟨hmem, hp⟩ := ih h
      exact ⟨List.mem_cons_of_mem a hmem, hp⟩

lemma head?_filter_least {p : ℕ × ℕ → Bool} {l : List (ℕ × ℕ)} {x : ℕ × ℕ}
    (hpw : l.Pairwise lex_lt) (h : (l.filter p).head? = some x) :
    ∀ q ∈ l, p q = true → lex_le x q := by
  induction l with
  | nil => simp [List.filter] at h
  | cons a t ih =>
    rw [List.pairwise_cons] at hpw
    obtain ⟨ha, hpw'⟩ := hpw
    rw [List.filter_cons] at h
    by_cases hpa : p a = true
    · rw [if_pos hpa, List.head?_cons, Option.some.injEq] at h
      subst h
      intro q hq _
      rcases List.mem_cons.mp hq with rfl | hq
      · exact Or.inr ⟨rfl, le_refl _⟩
      · rcases ha q hq with h' | h'
        · exact Or.inl h'
        · exact Or.inr ⟨h'.1, le_of_lt h'.2⟩
    · rw [if_neg hpa] at h
      intro q hq hpq
      rcases List.mem_cons.mp hq with rfl | hq
      · exact absurd hpq hpa
      · exact ih hpw' h q hq hpq

lemma mem_cells (g : PolymerGrid) {i j : ℕ} :
    (i, j) ∈ g.cells ↔ i < g.rows ∧ j < g.cols := by
  simp [PolymerGrid.cells, PolymerGrid.cell_rows, List.mem_flatten, List.mem_map,
    List.mem_range]

lemma cells_pairwise (g : PolymerGrid) : g.cells.Pairwise lex_lt := by
  unfold PolymerGrid.cells PolymerGrid.cell_rows
  rw [List.pairwise_flatten]
  refine ⟨?_, ?_⟩
  · intro l hl
    obtain ⟨i, _, rfl⟩ := List.mem_map.mp hl
    rw [List.pairwise_map]
    exact (List.pairwise_lt_range g.cols).imp fun hab => Or.inr ⟨rfl, hab⟩
  · rw [List.pairwise_map]
    refine (List.pairwise_lt_range g.rows).imp ?_
    intro i₁ i₂ h12 x hx y hy
    obtain ⟨j₁, _, rfl⟩ := List.mem_map.mp hx
    obtain ⟨j₂, _, rfl⟩ := List.mem_map.mp hy
    exact Or.inl h12

/-- C3: on a non-empty grid (`ℚ` coordinates are NaN-free by construction) the
Nearest-Grid resolver returns the index of a cell minimizing the squared
Euclidean distance `(longitude - lon)² + (latitude - lat)²` to the raw,
unreprojected query point, and among all cells attaining the minimum it
returns the lexicographically smallest `(row, col)`. -/
theorem nearest_grid_query_returns_lex_least_minimizer
    (g : PolymerGrid) (longitude latitude : ℚ)
    (hr : 0 < g.rows) (hc : 0 < g.cols) :
    ∃ i j, g.get_row_col_index_from_longitide_latitude longitude latitude = some (i, j) ∧
      i < g.rows ∧ j < g.cols ∧
      (∀ i' j', i' < g.rows → j' < g.cols →
        g.sq_diff longitude latitude (i, j) ≤ g.sq_diff longitude latitude (i', j')) ∧
      (∀ i' j', i' < g.rows → j' < g.cols →
        g.sq_diff longitude latitude (i', j') = g.sq_diff longitude latitude (i, j) →
        i < i' ∨ (i = i' ∧ j ≤ j')) := by
  classical
  set d := g.sq_diff longitude latitude with hd
  have hcell0 : (0, 0) ∈ g.cells := (mem_cells g).mpr ⟨hr, hc⟩
  obtain ⟨c0, t, hct⟩ := List.exists_cons_of_ne_nil (List.ne_nil_of_mem hcell0)
  have hmin : list_min (g.cells.map d) = some ((t.map d).foldl min (d c0)) := by
    rw [hct, List.map_cons]; rfl
  set m := (t.map d).foldl min (d c0) with hm
  have hmmem : m ∈ g.cells.map d := list_min_mem hmin
  obtain ⟨p, hpmem, hpd⟩ := List.mem_map.mp hmmem
  have hpfilter : p ∈ g.cells.filter fun q => decide (d q = m) := by
    rw [List.mem_filter]
    exact ⟨hpmem, decide_eq_true hpd⟩
  have hfne : (g.cells.filter fun q => decide (d q = m)) ≠ [] :=
    List.ne_nil_of_mem hpfilter
  obtain ⟨x, hx⟩ := Option.isSome_iff_exists.mp
    (by rw [List.head?_isSome]; exact hfne)
  have hresult : g.get_row_col_index_from_longitide_latitude longitude latitude = some x := by
    unfold PolymerGrid.get_row_col_index_from_longitide_latitude
    rw [← hd, hmin]
    exact hx
  obtain ⟨hxmem, hxd⟩ := head?_filter_mem hx
  have hxdm : d x = m := of_decide_eq_true hxd
  obtain ⟨i, j⟩ := x
  have hbounds := (mem_cells g).mp hxmem
  refine ⟨i, j, hresult, hbounds.1, hbounds.2, ?_, ?_⟩
  · intro i' j' hi' hj'
    have hmem' : (i', j') ∈ g.cells := (mem_cells g).mpr ⟨hi', hj'⟩
    have := list_min_le hmin (d (i', j')) (List.mem_map_of_mem d hmem')
    rw [hxdm]
    exact this
  · intro i' j' hi' hj' heq
    have hmem' : (i', j') ∈ g.cells := (mem_cells g).mpr ⟨hi', hj'⟩
    have hq : (fun q => decide (d q = m)) (i', j') = true := by
      rw [decide_eq_true_eq]
      rw [heq, hxdm]
    have := head?_filter_least (cells_pairwise g) hx (i', j') hmem' hq
    rcases this with h' | h'
    · exact Or.inl h'
    · exact Or.inr ⟨h'.1, h'.2⟩

/-- Concrete 2×2 grid with the longitude stored at `(i, j)` equal to `i` and
the latitude equal to `j`. -/
def unit_grid : PolymerGrid where
  rows := 2
  cols := 2
  lon := fun i _ => (i : ℚ)
  lat := fun _ j => (j : ℚ)

/-- Witness for `nearest_grid_query_returns_lex_least_minimizer` on a concrete
non-empty 2×2 grid. -/
theorem nearest_grid_query_returns_lex_least_minimizer_witness :
    0 < unit_grid.rows ∧ 0 < unit_grid.cols ∧
      (∃ i j, unit_grid.get_row_col_index_from_longitide_latitude 5 5 = some (i, j) ∧
        i < unit_grid.rows ∧ j < unit_grid.cols ∧
        (∀ i' j', i' < unit_grid.rows → j' < unit_grid.cols →
          unit_grid.sq_diff 5 5 (i, j) ≤ unit_grid.sq_diff 5 5 (i', j')) ∧
        (∀ i' j', i' < unit_grid.rows → j' < unit_grid.cols →
          unit_grid.sq_diff 5 5 (i', j') = unit_grid.sq_diff 5 5 (i, j) →
          i < i' ∨ (i = i' ∧ j ≤ j'))) :=
  ⟨by decide, by decide,
    nearest_grid_query_returns_lex_least_minimizer unit_grid 5 5 (by decide) (by decide)⟩

/-- Embedding of `utils/bridge_points_handler.py`'s `BridgePointsHandler`:
the list of known-bad pixel coordinates loaded at construction. -/
structure BridgePointsHandler where
  points_list : List (ℕ × ℕ)

/-- Embedding of `BridgePointsHandler.get_valid_points_mask`: a mask of ones
of the requested shape with `False` written at every stored point. -/
def BridgePointsHandler.get_valid_points_mask
    (h : BridgePointsHandler) (shape : ℕ × ℕ) : NArray Bool :=
  { rows := shape.1, cols := shape.2,
    data := fun i j => decide ((i, j) ∉ h.points_list) }

/-- Embedding of `utils/clean_water_mask_handler.py`'s `CleanWaterMaskHandler`:
the boolean array unpickled at construction. -/
structure CleanWaterMaskHandler where
  water_mask : NArray Bool

/-- Embedding of `CleanWaterMaskHandler.get_valid_points_mask`: the
elementwise numpy negation `~self.water_mask` of the stored array. -/
def CleanWaterMaskHandler.get_valid_points_mask (h : CleanWaterMaskHandler) : NArray Bool :=
  { rows := h.water_mask.rows, cols := h.water_mask.cols,
    data := fun i j => !(h.water_mask.data i j) }

/-- Elementwise numpy negation `~mask` of a boolean array. -/
def np_invert (m : NArray Bool) : NArray Bool :=
  { rows := m.rows, cols := m.cols, data := fun i j => !(m.data i j) }

/-- Reduction `numpy.all(masks, axis=0)` over a list of equal-shaped boolean
arrays: the elementwise conjunction (an empty list gives numpy's size-0
broadcast, irrelevant here since the source always stacks two masks). -/
def numpy_all_axis0 : List (NArray Bool) → NArray Bool
  | [] => { rows := 0, cols := 0, data := fun _ _ => true }
  | m :: ms =>
    { rows := m.rows, cols := m.cols,
      data := fun i j => (m :: ms).foldl (fun acc a => acc && a.data i j) true }

/-- Embedding of
`AbstractPolymerImageHandler.get_water_mask_from_bridge_and_clean_water_mask_handler`:
when both handlers are attached, stack the bridge validity mask and the
negated clean-water validity mask and reduce with `numpy.all(…, axis=0)`;
otherwise return `None`. -/
def get_water_mask_from_bridge_and_clean_water_mask_handler
    (bridge_points_handler : Option BridgePointsHandler)
    (clean_water_mask_handler : Option CleanWaterMaskHandler)
    (image_shape : ℕ × ℕ) : Option (NArray Bool) :=
  match bridge_points_handler, clean_water_mask_handler with
  | some bph, some cwh =>
    some (numpy_all_axis0
      [bph.get_valid_points_mask image_shape, np_invert cwh.get_valid_points_mask])
  | _, _ => none

/-- C5: with both providers attached the composed water-validity mask is the
elementwise AND of the obstruction (bridge-points) provider's mask with the
NOT of the bad-water (clean-water-mask) provider's mask; with either provider
absent the composition is reported absent (`None`), not as a default-true
mask. -/
theorem composed_water_mask_is_and_not
    (bph : BridgePointsHandler) (cwh : CleanWaterMaskHandler) (image_shape : ℕ × ℕ) :
    (∃ M, get_water_mask_from_bridge_and_clean_water_mask_handler
        (some bph) (some cwh) image_shape = some M ∧
      M.rows = image_shape.1 ∧ M.cols = image_shape.2 ∧
      ∀ i j, M.data i j =
        ((bph.get_valid_points_mask image_shape).data i j &&
          !((cwh.get_valid_points_mask).data i j))) ∧
    get_water_mask_from_bridge_and_clean_water_mask_handler
      none (some cwh) image_shape = none ∧
    get_water_mask_from_bridge_and_clean_water_mask_handler
      (some bph) none image_shape = none ∧
    get_water_mask_from_bridge_and_clean_water_mask_handler
      none none image_shape = none := by
  refine ⟨⟨_, rfl, rfl, rfl, fun i j => ?_⟩, rfl, rfl, rfl⟩
  simp [numpy_all_axis0, np_invert, BridgePointsHandler.get_valid_points_mask,
    CleanWaterMaskHandler.get_valid_points_mask]

/-- Embedding of the `AbstractSentinelImageHandler.water_mask` property:
`self.scene_clf == 6`, the numpy elementwise comparison of the scene
classification band against the Water class code. -/
def water_mask (scene_clf : NArray ℚ) : NArray Bool :=
  { rows := scene_clf.rows, cols := scene_clf.cols,
    data := fun i j => decide (scene_clf.data i j = 6) }

/-- C9: the `water_mask` property is a boolean array with the shape of the
scene classification band, true exactly at the pixels whose scene
classification value is `6` (the Water class). -/
theorem water_mask_is_scene_clf_eq_six (scene_clf : NArray ℚ) :
    (water_mask scene_clf).rows = scene_clf.rows ∧
    (water_mask scene_clf).cols = scene_clf.cols ∧
    ∀ i j, (water_mask scene_clf).data i j = true ↔ scene_clf.data i j = 6 := by
  refine ⟨rfl, rfl, fun i j => ?_⟩
  simp [water_mask]

/-- Embedding of the static method
`AbstractPolymerImageHandler.get_items_with_list_fallback`: walk the key list
in order, return the first lookup that is not `None`, and raise `ValueError`
(here `none`) when every lookup misses. -/
def get_items_with_list_fallback {K V : Type} (d : K → Option V) : List K → Option V
  | [] => none
  | elem :: rest =>
    match d elem with
    | some value => some value
    | none => get_items_with_list_fallback d rest

/-- The `BAND_NAME_MAPPING` of `AbstractPolymerImageHandler`: canonical band
name to the list of netCDF variable names to try in order. -/
def AbstractPolymerImageHandler.BAND_NAME_MAPPING : List (String × List String) :=
  [("blue_band", ["Rw490"]),
   ("green_band", ["Rw560"]),
   ("red_band", ["Rw665"]),
   ("nir_band", ["Rw842"]),
   ("swir_band", ["Rnir"]),
   ("lon", ["longitude"]),
   ("lat", ["latitude"])]

/-- The per-band loop of `AbstractPolymerImageHandler._load_nc_data_dict`:
resolve every entry of the mapping through `get_items_with_list_fallback`; a
raised `ValueError` (a band whose whole fallback list misses) aborts the
construction with no partial result. -/
def AbstractPolymerImageHandler.load_bands {V : Type} (nc_variables : String → Option V) :
    List (String × List String) → Option (List (String × V))
  | [] => some []
  | pair :: rest =>
    match get_items_with_list_fallback nc_variables pair.2 with
    | none => none
    | some value =>
      match AbstractPolymerImageHandler.load_bands nc_variables rest with
      | none => none
      | some tail => some ((pair.1, value) :: tail)

/-- Embedding of `AbstractPolymerImageHandler._load_nc_data_dict` restricted
to its band loop (the `date` metadata field is irrelevant to the claim): the
mapping from band names to loaded arrays, or `none` when construction fails. -/
def AbstractPolymerImageHandler.load_nc_data_dict {V : Type}
    (nc_variables : String → Option V) : Option (List (String × V)) :=
  AbstractPolymerImageHandler.load_bands nc_variables
    AbstractPolymerImageHandler.BAND_NAME_MAPPING

lemma get_items_with_list_fallback_eq_none {K V : Type} {d : K → Option V}
    {l : List K} (h : ∀ k ∈ l, d k = none) :
    get_items_with_list_fallback d l = none := by
  induction l with
  | nil => rfl
  | cons a t ih =>
    unfold get_items_with_list_fallback
    rw [h a (List.mem_cons_self a t)]
    exact ih fun k hk => h k (List.mem_cons_of_mem a hk)

lemma load_bands_eq_none {V : Type} {nc_variables : String → Option V}
    {mapping : List (String × List String)} {pair : String × List String}
    (hmem : pair ∈ mapping) (hmiss : ∀ code ∈ pair.2, nc_variables code = none) :
    AbstractPolymerImageHandler.load_bands nc_variables mapping = none := by
  induction mapping with
  | nil => simp at hmem
  | cons q rest ih =>
    unfold AbstractPolymerImageHandler.load_bands
    rcases List.mem_cons.mp hmem with rfl | hmem'
    · rw [get_items_with_list_fallback_eq_none hmiss]
    · cases hq : get_items_with_list_fallback nc_variables q.2 with
      | none => rfl
      | some v => rw [ih hmem']

/-- C7: when some expected band has every variable name of its fallback list
missing from the netCDF variables, `_load_nc_data_dict` raises (`none`) and
product construction fails with no partial product. -/
theorem missing_band_aborts_polymer_loading {V : Type} (nc_variables : String → Option V)
    (h : ∃ pair ∈ AbstractPolymerImageHandler.BAND_NAME_MAPPING,
      ∀ code ∈ pair.2, nc_variables code = none) :
    AbstractPolymerImageHandler.load_nc_data_dict nc_variables = none := by
  obtain ⟨pair, hmem, hmiss⟩ := h
  exact load_bands_eq_none hmem hmiss

/-- Variables table of a netCDF file that contains no variable at all. -/
def empty_nc_variables : String → Option ℕ := fun _ => none

/-- Witness for `missing_band_aborts_polymer_loading` on a variables table
missing every band. -/
theorem missing_band_aborts_polymer_loading_witness :
    (∃ pair ∈ AbstractPolymerImageHandler.BAND_NAME_MAPPING,
      ∀ code ∈ pair.2, empty_nc_variables code = none) ∧
    AbstractPolymerImageHandler.load_nc_data_dict empty_nc_variables = none :=
  ⟨by decide, missing_band_aborts_polymer_loading empty_nc_variables (by decide)⟩

/-- C10: `get_items_with_list_fallback` returns the value of the first key of
the list whose lookup is present, ignoring every later key. -/
theorem get_items_with_list_fallback_returns_first_present {K V : Type}
    (d : K → Option V) (l1 l2 : List K) (k : K)
    (h1 : ∀ k' ∈ l1, d k' = none) (h2 : (d k).isSome) :
    get_items_with_list_fallback d (l1 ++ k :: l2) = d k := by
  induction l1 with
  | nil =>
    obtain ⟨v, hv⟩ := Option.isSome_iff_exists.mp h2
    simp only [List.nil_append]
    unfold get_items_with_list_fallback
    rw [hv]
  | cons a t ih =>
    simp only [List.cons_append]
    unfold get_items_with_list_fallback
    rw [h1 a (List.mem_cons_self a t)]
    exact ih fun k' hk' => h1 k' (List.mem_cons_of_mem a hk')

/-- Lookup table sending key `2` to value `7` and every other key nowhere. -/
def fallback_example_table : ℕ → Option ℕ := fun n => if n = 2 then some 7 else none

/-- Witness for `get_items_with_list_fallback_returns_first_present` on the
key list `[1, 2, 3]`, whose first present key is `2`. -/
theorem get_items_with_list_fallback_returns_first_present_witness :
    (∀ k' ∈ [1], fallback_example_table k' = none) ∧
      (fallback_example_table 2).isSome = true ∧
      get_items_with_list_fallback fallback_example_table ([1] ++ 2 :: [3]) =
        fallback_example_table 2 :=
  ⟨by decide, by decide,
    get_items_with_list_fallback_returns_first_present fallback_example_table
      [1] [3] 2 (by decide) (by decide)⟩

/-- A transformation whose output band shape is a function of the input band
shape alone (true of Identity, Rotate and PolygonCrop, whose slicing bounds
are fixed at construction and clamped against the input extent). -/
def shape_functional (t : ImageTransformation) : Prop :=
  ∀ a b : NArray ℚ, a.rows = b.rows → a.cols = b.cols →
    (t.apply_transformation_to_band a).rows = (t.apply_transformation_to_band b).rows ∧
    (t.apply_transformation_to_band a).cols = (t.apply_transformation_to_band b).cols

/-- Embedding of `_apply_image_transformation_list` (identical in
`abstract_sentinel_image_handler.py` and `abstract_polymer_image_handler.py`):
for every named band, run the `for transformation in
self._image_transformation_list()` loop over the band array. -/
def apply_image_transformation_list (ts : List ImageTransformation)
    (loaded_data_dict : List (String × NArray ℚ)) : List (String × NArray ℚ) :=
  loaded_data_dict.map fun pair =>
    (pair.1, ts.foldl (fun band t => t.apply_transformation_to_band band) pair.2)

/-- Embedding of `_apply_image_wkt_polygone_subset`: apply the polygon-crop
transformation's band method to every named band. -/
def apply_image_wkt_polygone_subset (crop : ImageTransformation)
    (transformed_data_dict : List (String × NArray ℚ)) : List (String × NArray ℚ) :=
  transformed_data_dict.map fun pair =>
    (pair.1, crop.apply_transformation_to_band pair.2)

/-- Spatial shape of one named band of a data dictionary. -/
def band_shape (pair : String × NArray ℚ) : ℕ × ℕ := (pair.2.rows, pair.2.cols)

lemma foldl_band_shape_functional (ts : List ImageTransformation)
    (hts : ∀ t ∈ ts, shape_functional t) (a b : NArray ℚ)
    (hr : a.rows = b.rows) (hc : a.cols = b.cols) :
    (ts.foldl (fun band t => t.apply_transformation_to_band band) a).rows =
      (ts.foldl (fun band t => t.apply_transformation_to_band band) b).rows ∧
    (ts.foldl (fun band t => t.apply_transformation_to_band band) a).cols =
      (ts.foldl (fun band t => t.apply_transformation_to_band band) b).cols := by
  induction ts generalizing a b with
  | nil => exact ⟨hr, hc⟩
  | cons t rest ih =>
    obtain ⟨hr', hc'⟩ := hts t (List.mem_cons_self t rest) a b hr hc
    exact ih (fun u hu => hts u (List.mem_cons_of_mem t hu)) _ _ hr' hc'

/-- C8: if every configured transformation maps equal input shapes to equal
output shapes and all loaded bands share one pre-transformation shape, then
after the transformation list and the polygon-crop subset have run, all named
bands share one post-transformation shape. -/
theorem pipeline_yields_one_shared_band_shape
    (ts : List ImageTransformation) (crop : ImageTransformation)
    (bands : List (String × NArray ℚ))
    (hts : ∀ t ∈ ts, shape_functional t) (hcrop : shape_functional crop)
    (hpre : ∃ R0 C0, bands.map band_shape = List.replicate bands.length (R0, C0)) :
    ∃ R C, (apply_image_wkt_polygone_subset crop
        (apply_image_transformation_list ts bands)).map band_shape =
      List.replicate bands.length (R, C) := by
  obtain ⟨R0, C0, hrep⟩ := hpre
  have hall' : ∀ p ∈ bands, band_shape p = (R0, C0) := by
    intro p hp
    exact (List.eq_replicate_iff.mp hrep).2 _ (List.mem_map_of_mem band_shape hp)
  set g : NArray ℚ → NArray ℚ := fun band =>
    crop.apply_transformation_to_band
      (ts.foldl (fun band t => t.apply_transformation_to_band band) band) with hg
  have hout : (apply_image_wkt_polygone_subset crop
      (apply_image_transformation_list ts bands)) =
      bands.map fun pair => (pair.1, g pair.2) := by
    unfold apply_image_wkt_polygone_subset apply_image_transformation_list
    rw [List.map_map]
    rfl
  set dummy : NArray ℚ := ⟨R0, C0, fun _ _ => 0⟩ with hdummy
  refine ⟨(g dummy).rows, (g dummy).cols, ?_⟩
  rw [hout, List.map_map]
  rw [List.eq_replicate_iff]
  constructor
  · simp
  · intro s hs
    obtain ⟨p, hp, rfl⟩ := List.mem_map.mp hs
    have hshape := hall' p hp
    have hr0 : p.2.rows = dummy.rows := by
      have := congrArg Prod.fst hshape
      simpa [band_shape, hdummy] using this
    have hc0 : p.2.cols = dummy.cols := by
      have := congrArg Prod.snd hshape
      simpa [band_shape, hdummy] using this
    obtain ⟨hfr, hfc⟩ := foldl_band_shape_functional ts hts p.2 dummy hr0 hc0
    obtain ⟨hgr, hgc⟩ := hcrop _ _ hfr hfc
    simp only [Function.comp, band_shape, hg]
    exact Prod.ext hgr hgc

/-- Two loaded bands sharing the pre-transformation shape 2×3. -/
def sample_bands : List (String × NArray ℚ) :=
  [("blue_band", ⟨2, 3, fun _ _ => 0⟩), ("green_band", ⟨2, 3, fun _ _ => 1⟩)]

/-- Witness for `pipeline_yields_one_shared_band_shape` with one quarter-turn
rotation, the identity polygon crop, and two 2×3 bands. -/
theorem pipeline_yields_one_shared_band_shape_witness :
    (∀ t ∈ [RotateImageCW90 2], shape_functional t) ∧
    shape_functional IdentityPolygoneBoundariesImage ∧
    (∃ R0 C0, sample_bands.map band_shape =
      List.replicate sample_bands.length (R0, C0)) ∧
    (∃ R C, (apply_image_wkt_polygone_subset IdentityPolygoneBoundariesImage
        (apply_image_transformation_list [RotateImageCW90 2] sample_bands)).map band_shape =
      List.replicate sample_bands.length (R, C)) := by
  have hts : ∀ t ∈ [RotateImageCW90 2], shape_functional t := by
    intro t ht
    rw [List.mem_singleton] at ht
    subst ht
    exact fun a b hr hc => ⟨hc, hr⟩
  have hcrop : shape_functional IdentityPolygoneBoundariesImage :=
    fun a b hr hc => ⟨hr, hc⟩
  have hpre : ∃ R0 C0, sample_bands.map band_shape =
      List.replicate sample_bands.length (R0, C0) := ⟨2, 3, by decide⟩
  exact ⟨hts, hcrop, hpre,
    pipeline_yields_one_shared_band_shape [RotateImageCW90 2]
      IdentityPolygoneBoundariesImage sample_bands hts hcrop hpre⟩
